import Mathlib

/-!
Shallow embedding of the transaction-explanation engine of `src/sui_client.rs`
(the `parse_transaction`, `parse_object_change`, `parse_balance_change`,
`simplify_type`, `shorten_address` and `generate_summary` methods of
`SuiClient`) together with the data contracts of `src/models.rs`.

Conventions of the embedding:
* Rust `u64` values are `Nat` with wrapping (release-profile) arithmetic made
  explicit through `u64add`/`u64sub` (reduction modulo `2 ^ 64`).
* Rust `i128` is `Int` (it is only copied and rendered, never operated on).
* Values of external SDK types that the source only ever renders with
  `to_string()` or `{:?}` (addresses, object ids, type tags, the execution
  status) are carried as the already-rendered `String`s; the execution status
  additionally carries the result of its `is_ok()` test.
* Rust string slicing (`&address[..6]`) indexes by UTF-8 bytes and panics off a
  character boundary, so `shorten_address` returns `Option String` with `none`
  for the panic; the panic propagates through `parse_object_change` and
  `parse_transaction`.
* The `f64` renderings `format!("{:.6} SUI", mist as f64 / 1e9)` and
  `format!("{:+.6}", ..)` are modelled by exact decimal division by 10^9
  rounded half-to-even to six places, which agrees with the double-precision
  pipeline on the magnitudes the chain produces.
-/

/-! ## Generic string helpers (models of Rust `str` operations) -/

-- Model of Rust pattern matching at the front of a string: does the character
-- list start with the pattern?
def startsWithChars : List Char → List Char → Bool
  | [], _ => true
  | _ :: _, [] => false
  | p :: ps, c :: cs => p == c && startsWithChars ps cs

-- Model of Rust `str::contains` (substring search; on valid UTF-8 a byte-level
-- substring match always falls on character boundaries, so searching over the
-- character list is equivalent).
def containsChars (pat : List Char) : List Char → Bool
  | [] => startsWithChars pat []
  | c :: cs => startsWithChars pat (c :: cs) || containsChars pat cs

def strContains (s pat : String) : Bool :=
  containsChars pat.toList s.toList

-- Model of Rust `str::ends_with`, via reversed character lists.
def strEndsWith (s pat : String) : Bool :=
  startsWithChars pat.toList.reverse s.toList.reverse

-- Model of Rust `str::split` on a non-empty separator: leftmost,
-- non-overlapping occurrences.  The first argument is fuel (any value at least
-- the length of the scanned list plus one makes it run to completion).
def splitChars (sep : List Char) : Nat → List Char → List Char → List (List Char)
  | 0, l, acc => [acc.reverse ++ l]
  | fuel + 1, l, acc =>
    match l with
    | [] => [acc.reverse]
    | c :: cs =>
      if startsWithChars sep l then
        acc.reverse :: splitChars sep fuel (l.drop sep.length) []
      else
        splitChars sep fuel cs (c :: acc)

def strSplit (s sep : String) : List String :=
  (splitChars sep.toList (s.toList.length + 1) s.toList []).map String.mk

/-! ## Decimal rendering helpers (models of Rust `format!`) -/

def digitChar (d : Nat) : Char := Char.ofNat (48 + d)

-- Decimal digits of `n`, most significant first; fuel-driven structural
-- recursion (fuel `n + 1` always suffices: the number loses a digit per step).
def natDigitsAux : Nat → Nat → List Char
  | 0, _ => []
  | fuel + 1, n =>
    if n < 10 then [digitChar n]
    else natDigitsAux fuel (n / 10) ++ [digitChar (n % 10)]

def natDigits (n : Nat) : List Char := natDigitsAux (n + 1) n

-- Model of Rust `{}` display of an unsigned integer.
def natToDec (n : Nat) : String := String.mk (natDigits n)

-- Round `x / d` to the nearest integer, ties to even (the rounding of the
-- float formatting pipeline).
def roundHalfEven (x d : Nat) : Nat :=
  let q := x / d
  let r := x % d
  if 2 * r > d then q + 1
  else if 2 * r < d then q
  else if q % 2 = 0 then q else q + 1

def padSixDigits (l : List Char) : List Char :=
  List.replicate (6 - l.length) '0' ++ l

-- Model of `format!("{:.6}", n as f64 / 1e9)` for an unsigned MIST amount
-- `n` (1 SUI = 1,000,000,000 MIST): six decimal places of SUI.
def fmtDec6 (n : Nat) : String :=
  let micro := roundHalfEven n 1000
  natToDec (micro / 1000000) ++ "." ++ String.mk (padSixDigits (natDigits (micro % 1000000)))

-- Model of `format!("{:+.6}", amount as f64 / 1e9)` for a signed MIST amount:
-- always an explicit sign, then six decimal places of SUI.
def fmtPlusDec6 (a : Int) : String :=
  (if a < 0 then "-" else "+") ++ fmtDec6 a.natAbs

-- Model of `format!("{:+}", amount)` for a signed integer.
def fmtPlusInt (a : Int) : String :=
  (if a < 0 then "-" else "+") ++ natToDec a.natAbs

/-! ## u64 wrapping arithmetic (release-profile Rust `+` / `-` on `u64`) -/

def u64size : Nat := 2 ^ 64

def u64add (a b : Nat) : Nat := (a + b) % u64size

def u64sub (a b : Nat) : Nat := (a + u64size - b % u64size) % u64size

/-! ## UTF-8 byte-level slicing (model of Rust `&s[i..j]`) -/

-- Number of UTF-8 bytes of one character.
def charBytes (c : Char) : Nat :=
  if c.toNat < 128 then 1
  else if c.toNat < 2048 then 2
  else if c.toNat < 65536 then 3
  else 4

-- Rust `str::len`: the UTF-8 byte length.
def bytesLen (l : List Char) : Nat := (l.map charBytes).sum

-- Take exactly `n` leading bytes; `none` when `n` overruns the string or does
-- not fall on a character boundary (a Rust slice would panic there).
def takeBytes : Nat → List Char → Option (List Char)
  | 0, _ => some []
  | _ + 1, [] => none
  | n + 1, c :: cs =>
    if charBytes c ≤ n + 1 then (takeBytes (n + 1 - charBytes c) cs).map (c :: ·)
    else none

-- Drop exactly `n` leading bytes; same panic conditions as `takeBytes`.
def dropBytes : Nat → List Char → Option (List Char)
  | 0, l => some l
  | _ + 1, [] => none
  | n + 1, c :: cs =>
    if charBytes c ≤ n + 1 then dropBytes (n + 1 - charBytes c) cs
    else none

/-! ## Data model: raw response (external SDK types, as used by the source) -/

-- `effects.gas_cost_summary()`: the three fields the source reads.
structure GasCostSummary where
  computation_cost : Nat
  storage_cost : Nat
  storage_rebate : Nat
deriving Repr, DecidableEq

-- `effects.status()`: the source only calls `is_ok()` on it and renders it
-- with `{:?}`, so the model carries those two observations.
structure ExecutionStatus where
  isOk : Bool
  debugRepr : String
deriving Repr, DecidableEq

structure TransactionEffects where
  status : ExecutionStatus
  gasCostSummary : GasCostSummary
deriving Repr, DecidableEq

-- `tx.transaction.data.sender()`, already rendered.
structure TransactionData where
  sender : String
deriving Repr, DecidableEq

-- The `ObjectChange` enum of the SDK; ids, type tags and addresses are carried
-- as their `to_string()` renderings.  `other` stands for every variant beside
-- the four the source names (e.g. `Published`, `Wrapped`), of which the source
-- inspects nothing.
inductive ObjectChange where
  | created (object_id object_type owner : String)
  | transferred (object_id object_type sender recipient : String)
  | mutated (object_id object_type owner : String)
  | deleted (object_id object_type : String)
  | other (tag : String)
deriving Repr, DecidableEq

-- A raw `BalanceChange` of the SDK.
structure SuiBalanceChange where
  owner : String
  coin_type : String
  amount : Int
deriving Repr, DecidableEq

-- One entry of `events.data`.
structure RawEvent where
  type_ : String
  package_id : String
deriving Repr, DecidableEq

structure TransactionBlockEvents where
  data : List RawEvent
deriving Repr, DecidableEq

structure SuiTransactionBlockResponse where
  transaction : Option TransactionData
  effects : Option TransactionEffects
  object_changes : Option (List ObjectChange)
  balance_changes : Option (List SuiBalanceChange)
  events : Option TransactionBlockEvents
deriving Repr, DecidableEq

/-! ## Data model: produced records (`src/models.rs`) -/

structure ObjectMod where
  change_type : String
  object_type : String
  object_id : String
  owner : Option String
  details : String
deriving Repr, DecidableEq

structure BalanceChange where
  owner : String
  coin_type : String
  amount : Int
  amount_readable : String
deriving Repr, DecidableEq

structure TransactionExplanation where
  digest : String
  sender : String
  status : String
  gas_used : Nat
  gas_used_sui : String
  actions : List String
  object_changes : List ObjectMod
  balance_changes : List BalanceChange
  events : List String
  summary : String
deriving Repr, DecidableEq

-- Rust `TransactionExplanation::default()` (derived `Default`).
def defaultExplanation : TransactionExplanation :=
  { digest := "", sender := "", status := "", gas_used := 0, gas_used_sui := "",
    actions := [], object_changes := [], balance_changes := [], events := [],
    summary := "" }

/-! ## The engine (`impl SuiClient` in `src/sui_client.rs`) -/

-- `simplify_type`
def simplify_type (type_str : String) : String :=
  if strContains type_str "0x2::sui::SUI" then "SUI Coin"
  else if strContains type_str "::coin::Coin" then "Coin"
  else if strContains type_str "::nft::" then "NFT"
  else (strSplit type_str "::").getLastD type_str

-- `shorten_address`; `none` models the panic of a byte slice that misses a
-- character boundary.
def shorten_address (address : String) : Option String :=
  let chars := address.toList
  let len := bytesLen chars
  if len > 10 then
    match takeBytes 6 chars, dropBytes (len - 4) chars with
    | some p, some s => some (String.mk p ++ "..." ++ String.mk s)
    | _, _ => none
  else some address

-- The catch-all `ObjectMod` of `parse_object_change`'s wildcard arm.
def unknownObjectMod : ObjectMod :=
  { change_type := "Unknown", object_type := "Unknown", object_id := "Unknown",
    owner := none, details := "Unknown object change" }

-- `parse_object_change`
def parse_object_change : ObjectChange → Option ObjectMod
  | .created object_id object_type owner => do
    let shortOwner ← shorten_address owner
    some { change_type := "Created",
           object_type := simplify_type object_type,
           object_id := object_id,
           owner := some owner,
           details := "Created new " ++ simplify_type object_type ++
             " owned by " ++ shortOwner }
  | .transferred object_id object_type sender recipient => do
    let shortSender ← shorten_address sender
    let shortRecipient ← shorten_address recipient
    some { change_type := "Transferred",
           object_type := simplify_type object_type,
           object_id := object_id,
           owner := some recipient,
           details := "Transferred " ++ simplify_type object_type ++
             " from " ++ shortSender ++ " to " ++ shortRecipient }
  | .mutated object_id object_type owner => do
    let shortOwner ← shorten_address owner
    some { change_type := "Mutated",
           object_type := simplify_type object_type,
           object_id := object_id,
           owner := some owner,
           details := "Modified " ++ simplify_type object_type ++
             " owned by " ++ shortOwner }
  | .deleted object_id object_type =>
    some { change_type := "Deleted",
           object_type := simplify_type object_type,
           object_id := object_id,
           owner := none,
           details := "Deleted " ++ simplify_type object_type }
  | .other _ => some unknownObjectMod

-- `parse_balance_change`
def parse_balance_change (balance : SuiBalanceChange) : BalanceChange :=
  let amount := balance.amount
  let coin_type := simplify_type balance.coin_type
  let amount_readable :=
    if strContains coin_type "SUI" then fmtPlusDec6 amount ++ " SUI"
    else fmtPlusInt amount
  { owner := balance.owner, coin_type := coin_type, amount := amount,
    amount_readable := amount_readable }

-- Model of Rust `Vec::join` on strings (used as `parts.join(" • ")`).
def joinSep (sep : String) : List String → String
  | [] => ""
  | [x] => x
  | x :: y :: rest => x ++ sep ++ joinSep sep (y :: rest)

-- `generate_summary`
def generate_summary (explanation : TransactionExplanation) : String :=
  let action_count := explanation.actions.length
  let balance_count := explanation.balance_changes.length
  if action_count == 0 && balance_count == 0 then
    "Transaction executed with " ++ explanation.gas_used_sui ++ " gas"
  else
    let parts : List String :=
      (if action_count > 0 then
        [natToDec action_count ++ " object change" ++
          (if action_count == 1 then "" else "s")]
      else []) ++
      (if balance_count > 0 then
        [natToDec balance_count ++ " balance change" ++
          (if balance_count == 1 then "" else "s")]
      else [])
    joinSep " • " parts ++ " • Gas: " ++ explanation.gas_used_sui

-- `gas_used.computation_cost + gas_used.storage_cost - gas_used.storage_rebate`
-- with release-profile u64 wrapping arithmetic.
def gasUsedMist (g : GasCostSummary) : Nat :=
  u64sub (u64add g.computation_cost g.storage_cost) g.storage_rebate

-- The `for change in changes` loop of `parse_transaction`: pushes each parsed
-- change's `details` onto `actions` and the record onto `object_changes`, in
-- raw order; a `none` (panic inside `shorten_address`) aborts everything.
def processChanges : List ObjectChange → Option (List String × List ObjectMod)
  | [] => some ([], [])
  | change :: rest => do
    let obj_change ← parse_object_change change
    let (acts, mods) ← processChanges rest
    some (obj_change.details :: acts, obj_change :: mods)

-- The `format!("Event: {} from package {}", ..)` of the events loop.
def formatEvent (event : RawEvent) : String :=
  "Event: " ++ simplify_type event.type_ ++ " from package " ++ event.package_id

-- `parse_transaction`
def parse_transaction (digest : String) (tx : SuiTransactionBlockResponse) :
    Option TransactionExplanation := do
  let e0 := { defaultExplanation with digest := digest }
  let e1 :=
    match tx.transaction with
    | some tx_data => { e0 with sender := tx_data.sender }
    | none => e0
  let e2 :=
    match tx.effects with
    | some effects =>
      { e1 with
        status :=
          if effects.status.isOk then "Success"
          else "Failed : " ++ effects.status.debugRepr,
        gas_used := gasUsedMist effects.gasCostSummary,
        gas_used_sui := fmtDec6 (gasUsedMist effects.gasCostSummary) ++ " SUI" }
    | none => e1
  let e3 ←
    match tx.object_changes with
    | some changes => do
      let (acts, mods) ← processChanges changes
      some { e2 with actions := acts, object_changes := mods }
    | none => some e2
  let e4 :=
    match tx.balance_changes with
    | some balances => { e3 with balance_changes := balances.map parse_balance_change }
    | none => e3
  let e5 :=
    match tx.events with
    | some events => { e4 with events := events.data.map formatEvent }
    | none => e4
  some { e5 with summary := generate_summary e5 }


/-! ## Proof-layer definitions -/

-- Every character is a single UTF-8 byte (plain ASCII), as is the case for the
-- hex address renderings the ledger produces.
def asciiStr (s : String) : Bool := s.toList.all (fun c => c.toNat < 128)

-- The addresses an object change feeds to `shorten_address` are all ASCII.
def changeAddrsAscii : ObjectChange → Bool
  | .created _ _ owner => asciiStr owner
  | .transferred _ _ sender recipient => asciiStr sender && asciiStr recipient
  | .mutated _ _ owner => asciiStr owner
  | .deleted _ _ => true
  | .other _ => true

-- Structural validity of a raw record: the rendered addresses inside the
-- object changes are ASCII (true of every address the ledger API emits).
def validResponse (tx : SuiTransactionBlockResponse) : Bool :=
  match tx.object_changes with
  | some changes => changes.all changeAddrsAscii
  | none => true

-- The object-change portion of `parse_transaction`, pulled out; `some` for a
-- missing section models the loop that never runs.
def changesResult (tx : SuiTransactionBlockResponse) :
    Option (List String × List ObjectMod) :=
  match tx.object_changes with
  | some changes => processChanges changes
  | none => some ([], [])

-- Closed form of the explanation `parse_transaction` produces once the
-- object-change loop has delivered `acts`/`mods`.
def buildExplanation (digest : String) (tx : SuiTransactionBlockResponse)
    (acts : List String) (mods : List ObjectMod) : TransactionExplanation :=
  let pre : TransactionExplanation :=
    { digest := digest,
      sender :=
        match tx.transaction with
        | some tx_data => tx_data.sender
        | none => "",
      status :=
        match tx.effects with
        | some effects =>
          if effects.status.isOk then "Success"
          else "Failed : " ++ effects.status.debugRepr
        | none => "",
      gas_used :=
        match tx.effects with
        | some effects => gasUsedMist effects.gasCostSummary
        | none => 0,
      gas_used_sui :=
        match tx.effects with
        | some effects => fmtDec6 (gasUsedMist effects.gasCostSummary) ++ " SUI"
        | none => "",
      actions := acts,
      object_changes := mods,
      balance_changes :=
        match tx.balance_changes with
        | some balances => balances.map parse_balance_change
        | none => [],
      events :=
        match tx.events with
        | some events => events.data.map formatEvent
        | none => [],
      summary := "" }
  { pre with summary := generate_summary pre }

-- Missing optional sections leave the corresponding output fields at the
-- defaults of `TransactionExplanation::default()`.
def missingSectionDefaults (tx : SuiTransactionBlockResponse)
    (e : TransactionExplanation) : Prop :=
  (tx.transaction = none → e.sender = "") ∧
  (tx.effects = none → e.status = "" ∧ e.gas_used = 0 ∧ e.gas_used_sui = "") ∧
  (tx.object_changes = none → e.actions = [] ∧ e.object_changes = []) ∧
  (tx.balance_changes = none → e.balance_changes = []) ∧
  (tx.events = none → e.events = [])

-- Status and gas extraction behaviour of the spec, relative to the raw record.
def statusGasSpec (tx : SuiTransactionBlockResponse)
    (e : TransactionExplanation) : Prop :=
  (tx.effects = none → e.status = "" ∧ e.gas_used = 0 ∧ e.gas_used_sui = "") ∧
  (∀ effects, tx.effects = some effects →
    (effects.status.isOk = true → e.status = "Success") ∧
    (effects.status.isOk = false →
      e.status = "Failed : " ++ effects.status.debugRepr))

/-! ## Concrete raw records used by the witnesses -/

def txTotalW : SuiTransactionBlockResponse :=
  { transaction := none, effects := none,
    object_changes := some
      [ObjectChange.created "0xobj1" "0x2::coin::Coin<0x2::sui::SUI>" "0xabcdefabcdefabcdef",
       ObjectChange.other "Published"],
    balance_changes := none, events := none }

def txStatusW : SuiTransactionBlockResponse :=
  { transaction := none,
    effects := some
      { status := { isOk := false, debugRepr := "InsufficientGas" },
        gasCostSummary := { computation_cost := 1000, storage_cost := 500, storage_rebate := 300 } },
    object_changes := none, balance_changes := none, events := none }

def txActionsW : SuiTransactionBlockResponse :=
  { transaction := some { sender := "0xsender" }, effects := none,
    object_changes := some
      [ObjectChange.mutated "0xobj2" "0xabc::market::Listing" "0x1234567890abcdef",
       ObjectChange.deleted "0xobj3" "0xabc::nft::Badge"],
    balance_changes := none, events := none }

def balNativeW : SuiBalanceChange :=
  { owner := "0xowner", coin_type := "0x2::coin::Coin<0x2::sui::SUI>",
    amount := -2500000000 }

def eSummaryW : TransactionExplanation :=
  { defaultExplanation with
    actions := ["a", "b"],
    balance_changes := [{ owner := "o", coin_type := "t", amount := 0, amount_readable := "+0" }],
    gas_used_sui := "0.001000 SUI" }

def eNoniA : TransactionExplanation :=
  { defaultExplanation with
    digest := "digestA", sender := "0xalice", status := "Success",
    actions := ["created something"],
    object_changes := [unknownObjectMod],
    balance_changes := [{ owner := "oA", coin_type := "SUI Coin", amount := 7, amount_readable := "+0.000000 SUI" }],
    events := ["Event: X from package P"],
    gas_used_sui := "0.000500 SUI" }

def eNoniB : TransactionExplanation :=
  { defaultExplanation with
    digest := "digestB", sender := "0xbob", status := "Failed : OutOfGas",
    actions := ["deleted something else"],
    object_changes := [{ change_type := "Deleted", object_type := "T", object_id := "i", owner := none, details := "Deleted T" }],
    balance_changes := [{ owner := "oB", coin_type := "Token", amount := -9, amount_readable := "-9" }],
    events := [],
    gas_used_sui := "0.000500 SUI" }

/-! ## Helper lemmas -/

theorem asciiStr_mem {s : String} (h : asciiStr s = true) :
    ∀ c ∈ s.toList, c.toNat < 128 := by
  intro c hc
  have := List.all_eq_true.mp h c hc
  simpa using this

theorem charBytes_of_ascii {c : Char} (h : c.toNat < 128) : charBytes c = 1 := by
  simp [charBytes, h]

theorem bytesLen_ascii : ∀ {l : List Char}, (∀ c ∈ l, c.toNat < 128) →
    bytesLen l = l.length := by
  intro l
  induction l with
  | nil => intro _; rfl
  | cons c cs ih =>
    intro h
    have hc : charBytes c = 1 := charBytes_of_ascii (h c (by simp))
    have hcs := ih (fun x hx => h x (by simp [hx]))
    simp [bytesLen, List.map_cons, List.sum_cons, hc] at *
    omega

theorem takeBytes_ascii : ∀ (l : List Char) (n : Nat),
    (∀ c ∈ l, c.toNat < 128) → n ≤ l.length → takeBytes n l = some (l.take n) := by
  intro l
  induction l with
  | nil =>
    intro n _ hn
    have : n = 0 := by simpa using hn
    subst this
    rfl
  | cons c cs ih =>
    intro n h hn
    cases n with
    | zero => rfl
    | succ m =>
      have hc : charBytes c = 1 := charBytes_of_ascii (h c (by simp))
      have hm : m ≤ cs.length := by simpa using hn
      have hrec := ih m (fun x hx => h x (by simp [hx])) hm
      simp [takeBytes, hc, hrec, List.take_succ_cons]

theorem dropBytes_ascii : ∀ (l : List Char) (n : Nat),
    (∀ c ∈ l, c.toNat < 128) → n ≤ l.length → dropBytes n l = some (l.drop n) := by
  intro l
  induction l with
  | nil =>
    intro n _ hn
    have : n = 0 := by simpa using hn
    subst this
    rfl
  | cons c cs ih =>
    intro n h hn
    cases n with
    | zero => rfl
    | succ m =>
      have hc : charBytes c = 1 := charBytes_of_ascii (h c (by simp))
      have hm : m ≤ cs.length := by simpa using hn
      have hrec := ih m (fun x hx => h x (by simp [hx])) hm
      simp [dropBytes, hc, hrec]

theorem toList_length_eq (s : String) : s.toList.length = s.length := rfl

theorem shorten_address_ascii_long {address : String} (h : asciiStr address = true)
    (hl : 10 < address.length) :
    shorten_address address =
      some (String.mk (address.toList.take 6) ++ "..." ++
        String.mk (address.toList.drop (address.length - 4))) := by
  have hmem := asciiStr_mem h
  have hlen : bytesLen address.toList = address.length := bytesLen_ascii hmem
  have h6 : (6 : Nat) ≤ address.toList.length := by
    rw [toList_length_eq]; omega
  have h4 : address.length - 4 ≤ address.toList.length := by
    rw [toList_length_eq]; omega
  unfold shorten_address
  dsimp only
  rw [hlen, if_pos hl, takeBytes_ascii _ _ hmem h6, dropBytes_ascii _ _ hmem h4]

theorem shorten_address_le10 {address : String}
    (hl : ¬ 10 < bytesLen address.toList) :
    shorten_address address = some address := by
  unfold shorten_address
  dsimp only
  rw [if_neg hl]

theorem shorten_address_ascii_isSome {address : String} (h : asciiStr address = true) :
    ∃ r, shorten_address address = some r := by
  by_cases hl : 10 < address.length
  · exact ⟨_, shorten_address_ascii_long h hl⟩
  · refine ⟨address, shorten_address_le10 ?_⟩
    rw [bytesLen_ascii (asciiStr_mem h), toList_length_eq]
    exact hl

theorem natDigits_reverse_cons (n : Nat) :
    ∃ k t, k < 10 ∧ (natDigits n).reverse = digitChar k :: t := by
  unfold natDigits
  by_cases h : n < 10
  · exact ⟨n, [], h, by simp [natDigitsAux, h]⟩
  · refine ⟨n % 10, (natDigitsAux n (n / 10)).reverse, Nat.mod_lt _ (by omega), ?_⟩
    simp [natDigitsAux, h]

theorem digitChar_ne_I {k : Nat} (hk : k < 10) : ('I' == digitChar k) = false := by
  interval_cases k <;> decide

theorem startsWithChars_self_append (p q : List Char) :
    startsWithChars p (p ++ q) = true := by
  induction p with
  | nil => rfl
  | cons c cs ih => simp [startsWithChars, ih]

theorem strEndsWith_append_self (x : String) : strEndsWith (x ++ " SUI") " SUI" = true := by
  unfold strEndsWith
  have hd : (x ++ " SUI").toList = x.toList ++ (" SUI").toList :=
    String.data_append x " SUI"
  rw [hd, List.reverse_append]
  exact startsWithChars_self_append _ _

theorem fmtPlusInt_head (a : Int) :
    (fmtPlusInt a).toList.head? = some '-' ∨ (fmtPlusInt a).toList.head? = some '+' := by
  unfold fmtPlusInt
  by_cases h : a < 0
  · left
    rw [if_pos h]
    rfl
  · right
    rw [if_neg h]
    rfl

theorem fmtPlusDec6_sui_head (a : Int) :
    (fmtPlusDec6 a ++ " SUI").toList.head? = some '-' ∨
    (fmtPlusDec6 a ++ " SUI").toList.head? = some '+' := by
  unfold fmtPlusDec6
  by_cases h : a < 0
  · left
    rw [if_pos h]
    rfl
  · right
    rw [if_neg h]
    rfl

theorem fmtPlusInt_no_sui_suffix (a : Int) :
    strEndsWith (fmtPlusInt a) " SUI" = false := by
  obtain ⟨k, t, hk, hrev⟩ := natDigits_reverse_cons a.natAbs
  unfold strEndsWith fmtPlusInt natToDec
  have hpat : (" SUI" : String).toList.reverse = ['I', 'U', 'S', ' '] := rfl
  rw [hpat]
  by_cases h : a < 0
  · rw [if_pos h]
    have hd : (("-" : String) ++ String.mk (natDigits a.natAbs)).toList =
        '-' :: natDigits a.natAbs := rfl
    rw [hd]
    have : ('-' :: natDigits a.natAbs).reverse =
        (natDigits a.natAbs).reverse ++ ['-'] := by simp
    rw [this, hrev]
    simp [startsWithChars, digitChar_ne_I hk]
  · rw [if_neg h]
    have hd : (("+" : String) ++ String.mk (natDigits a.natAbs)).toList =
        '+' :: natDigits a.natAbs := rfl
    rw [hd]
    have : ('+' :: natDigits a.natAbs).reverse =
        (natDigits a.natAbs).reverse ++ ['+'] := by simp
    rw [this, hrev]
    simp [startsWithChars, digitChar_ne_I hk]

theorem simplify_type_marker_label {x : String}
    (h : strContains x "0x2::sui::SUI" = true ∨ strContains x "::coin::Coin" = true ∨
      strContains x "::nft::" = true) :
    simplify_type x = "SUI Coin" ∨ simplify_type x = "Coin" ∨ simplify_type x = "NFT" := by
  unfold simplify_type
  by_cases h1 : strContains x "0x2::sui::SUI" = true
  · left
    rw [if_pos h1]
  · by_cases h2 : strContains x "::coin::Coin" = true
    · right; left
      rw [if_neg h1, if_pos h2]
    · have h3 : strContains x "::nft::" = true := by tauto
      right; right
      rw [if_neg h1, if_neg h2, if_pos h3]

theorem parse_object_change_isSome {c : ObjectChange}
    (h : changeAddrsAscii c = true) : (parse_object_change c).isSome = true := by
  cases c with
  | created oid ot owner =>
    obtain ⟨r, hr⟩ := shorten_address_ascii_isSome (by simpa [changeAddrsAscii] using h)
    simp [parse_object_change, hr]
  | transferred oid ot sender recipient =>
    have hsr : asciiStr sender = true ∧ asciiStr recipient = true := by
      simpa [changeAddrsAscii] using h
    obtain ⟨r1, hr1⟩ := shorten_address_ascii_isSome hsr.1
    obtain ⟨r2, hr2⟩ := shorten_address_ascii_isSome hsr.2
    simp [parse_object_change, hr1, hr2]
  | mutated oid ot owner =>
    obtain ⟨r, hr⟩ := shorten_address_ascii_isSome (by simpa [changeAddrsAscii] using h)
    simp [parse_object_change, hr]
  | deleted oid ot => rfl
  | other tag => rfl

theorem processChanges_isSome {cs : List ObjectChange}
    (h : cs.all changeAddrsAscii = true) : (processChanges cs).isSome = true := by
  induction cs with
  | nil => rfl
  | cons c rest ih =>
    rw [List.all_cons, Bool.and_eq_true] at h
    obtain ⟨m, hm⟩ := Option.isSome_iff_exists.mp (parse_object_change_isSome h.1)
    obtain ⟨p, hp⟩ := Option.isSome_iff_exists.mp (ih h.2)
    simp [processChanges, hm, hp]

theorem processChanges_actions_eq : ∀ {cs : List ObjectChange}
    {acts : List String} {mods : List ObjectMod},
    processChanges cs = some (acts, mods) →
    acts = mods.map (fun m => m.details) := by
  intro cs
  induction cs with
  | nil =>
    intro acts mods h
    simp [processChanges] at h
    rw [h.1, h.2]
    rfl
  | cons c rest ih =>
    intro acts mods h
    simp only [processChanges, Option.bind_eq_bind] at h
    cases hm : parse_object_change c with
    | none => rw [hm] at h; simp at h
    | some m =>
      rw [hm] at h
      cases hp : processChanges rest with
      | none => rw [hp] at h; simp at h
      | some p =>
        rw [hp] at h
        simp at h
        obtain ⟨as, ms⟩ := p
        have := ih hp
        simp at h
        rw [← h.1, ← h.2]
        simp [this]

theorem parse_transaction_eq (digest : String) (tx : SuiTransactionBlockResponse) :
    parse_transaction digest tx =
      (changesResult tx).map (fun p => buildExplanation digest tx p.1 p.2) := by
  rcases tx with ⟨t, eff, oc, bc, ev⟩
  cases oc with
  | none =>
    cases t <;> cases eff <;> cases bc <;> cases ev <;> rfl
  | some changes =>
    cases hp : processChanges changes with
    | none =>
      cases t <;> cases eff <;> cases bc <;> cases ev <;>
        simp [parse_transaction, changesResult, hp]
    | some p =>
      obtain ⟨acts, mods⟩ := p
      cases t <;> cases eff <;> cases bc <;> cases ev <;>
        simp [parse_transaction, changesResult, buildExplanation, hp,
          defaultExplanation, generate_summary]

/-! ## Claim theorems -/

/-- C1: the gas computation `computation_cost + storage_cost - storage_rebate`
of `parse_transaction` does not saturate and raises no data-integrity fault
when `storage_rebate` exceeds the sum: with release-profile u64 semantics it
silently wraps modulo `2 ^ 64`.  At computation_cost = 0, storage_cost = 0,
storage_rebate = 1 the code yields `2 ^ 64 - 1` instead of 0 or an error. -/
theorem gas_used_wraps_on_rebate_excess :
    gasUsedMist { computation_cost := 0, storage_cost := 0, storage_rebate := 1 } =
      18446744073709551615 ∧
    gasUsedMist { computation_cost := 0, storage_cost := 0, storage_rebate := 1 } ≠ 0 := by
  constructor
  · rfl
  · decide

/-- C7 counterexample: `shorten_address` is not characterised by the claim on
arbitrary (non-ASCII) strings.  On `"ñññññx"` (6 characters, 11 UTF-8 bytes)
the byte-length test fires but the slice `&address[len - 4..]` falls inside a
two-byte character, so the Rust code panics (modelled as `none`): the result is
neither the unchanged input (character length 6 ≤ 10) nor a 13-character
`first6...last4` string (byte length 11 > 10). -/
theorem shorten_address_multibyte_cex :
    shorten_address "ñññññx" = none ∧
    ("ñññññx" : String).length ≤ 10 ∧ 10 < bytesLen ("ñññññx" : String).toList := by
  refine ⟨by decide, by decide, by decide⟩

/-- C7 (amended): for ASCII address strings — every character a single UTF-8
byte, as all ledger-rendered addresses are — `shorten_address` returns the
input unchanged when its length is at most 10, and otherwise returns the first
6 characters, then `"..."`, then the last 4 characters, a string of length
exactly 13. -/
theorem shorten_address_ascii_spec (address : String) (h : asciiStr address = true) :
    (address.length ≤ 10 → shorten_address address = some address) ∧
    (10 < address.length →
      shorten_address address =
        some (String.mk (address.toList.take 6) ++ "..." ++
          String.mk (address.toList.drop (address.length - 4))) ∧
      (String.mk (address.toList.take 6) ++ "..." ++
          String.mk (address.toList.drop (address.length - 4))).length = 13) := by
  constructor
  · intro hle
    apply shorten_address_le10
    rw [bytesLen_ascii (asciiStr_mem h), toList_length_eq]
    omega
  · intro hgt
    refine ⟨shorten_address_ascii_long h hgt, ?_⟩
    have hlen : address.toList.length = address.length := rfl
    simp [String.length_append, List.length_take, List.length_drop,
      show ("..." : String).length = 3 from rfl]
    omega

theorem shorten_address_ascii_spec_witness :
    shorten_address "0x1234567890abcdef" =
      some (String.mk (("0x1234567890abcdef" : String).toList.take 6) ++ "..." ++
        String.mk (("0x1234567890abcdef" : String).toList.drop
          (("0x1234567890abcdef" : String).length - 4))) :=
  ((shorten_address_ascii_spec "0x1234567890abcdef" (by decide)).2 (by decide)).1

/-- C8: `simplify_type` is idempotent on inputs containing any of the three
special-cased markers: the result is one of the fixed labels `"SUI Coin"`,
`"Coin"`, `"NFT"`, each of which `simplify_type` maps to itself. -/
theorem simplify_type_idempotent_on_markers (x : String)
    (h : strContains x "0x2::sui::SUI" = true ∨ strContains x "::coin::Coin" = true ∨
      strContains x "::nft::" = true) :
    simplify_type (simplify_type x) = simplify_type x := by
  rcases simplify_type_marker_label h with hfix | hfix | hfix <;> rw [hfix] <;> rfl

theorem simplify_type_idempotent_on_markers_witness :
    strContains "0x2::coin::Coin<0x2::sui::SUI>" "0x2::sui::SUI" = true ∧
    simplify_type (simplify_type "0x2::coin::Coin<0x2::sui::SUI>") =
      simplify_type "0x2::coin::Coin<0x2::sui::SUI>" :=
  ⟨by decide, simplify_type_idempotent_on_markers _ (Or.inl (by decide))⟩

/-- C9: `generate_summary` reads only the action count, the balance-change
count and the `gas_used_sui` string: two explanations agreeing on those three
observations receive identical summaries, whatever their other fields hold. -/
theorem generate_summary_noninterference (e1 e2 : TransactionExplanation)
    (ha : e1.actions.length = e2.actions.length)
    (hb : e1.balance_changes.length = e2.balance_changes.length)
    (hg : e1.gas_used_sui = e2.gas_used_sui) :
    generate_summary e1 = generate_summary e2 := by
  unfold generate_summary
  dsimp only
  rw [ha, hb, hg]

theorem generate_summary_noninterference_witness :
    generate_summary eNoniA = generate_summary eNoniB :=
  generate_summary_noninterference eNoniA eNoniB rfl rfl rfl

/-- C10: `shorten_address` slices at byte indices 6 and `len - 4`; on strings
of single-byte (ASCII) characters those positions are always in bounds and on
character boundaries, so the function never panics there — and this guarantee
does not extend to arbitrary multi-byte strings of byte length greater than
10, where the slice can panic. -/
theorem shorten_address_ascii_total :
    (∀ address : String, asciiStr address = true →
      (shorten_address address).isSome = true) ∧
    (∃ address : String, 10 < bytesLen address.toList ∧
      shorten_address address = none) := by
  constructor
  · intro a h
    obtain ⟨r, hr⟩ := shorten_address_ascii_isSome h
    simp [hr]
  · exact ⟨"ñññññx", by decide, by decide⟩

theorem shorten_address_ascii_total_witness :
    (shorten_address "0x1234567890abcd").isSome = true :=
  shorten_address_ascii_total.1 "0x1234567890abcd" (by decide)

/-- C5: `parse_balance_change` copies `amount` through unmodified; the rendered
`amount_readable` always starts with an explicit sign; when the simplified
coin type contains the native-coin marker `"SUI"` it is the six-decimal SUI
rendering with the `" SUI"` suffix, and otherwise it is the signed raw integer
and never carries the `" SUI"` suffix. -/
theorem parse_balance_change_spec (balance : SuiBalanceChange) :
    (parse_balance_change balance).amount = balance.amount ∧
    ((parse_balance_change balance).amount_readable.toList.head? = some '-' ∨
      (parse_balance_change balance).amount_readable.toList.head? = some '+') ∧
    (strContains (simplify_type balance.coin_type) "SUI" = true →
      (parse_balance_change balance).amount_readable =
        fmtPlusDec6 balance.amount ++ " SUI" ∧
      strEndsWith (parse_balance_change balance).amount_readable " SUI" = true) ∧
    (strContains (simplify_type balance.coin_type) "SUI" = false →
      (parse_balance_change balance).amount_readable = fmtPlusInt balance.amount ∧
      strEndsWith (parse_balance_change balance).amount_readable " SUI" = false) := by
  unfold parse_balance_change
  dsimp only
  by_cases hc : strContains (simplify_type balance.coin_type) "SUI" = true
  · rw [if_pos hc]
    refine ⟨rfl, fmtPlusDec6_sui_head balance.amount, ?_, ?_⟩
    · intro _
      exact ⟨rfl, strEndsWith_append_self _⟩
    · intro hfalse
      rw [hc] at hfalse
      cases hfalse
  · have hcf : strContains (simplify_type balance.coin_type) "SUI" = false := by
      simp at hc
      exact hc
    rw [if_neg hc]
    refine ⟨rfl, fmtPlusInt_head balance.amount, ?_, ?_⟩
    · intro htrue
      rw [hcf] at htrue
      cases htrue
    · intro _
      exact ⟨rfl, fmtPlusInt_no_sui_suffix balance.amount⟩

theorem parse_balance_change_spec_witness :
    (parse_balance_change balNativeW).amount = balNativeW.amount ∧
    (parse_balance_change balNativeW).amount_readable =
      fmtPlusDec6 balNativeW.amount ++ " SUI" ∧
    strEndsWith (parse_balance_change balNativeW).amount_readable " SUI" = true :=
  ⟨(parse_balance_change_spec balNativeW).1,
   ((parse_balance_change_spec balNativeW).2.2.1 (by decide)).1,
   ((parse_balance_change_spec balNativeW).2.2.1 (by decide)).2⟩

/-- C6: with zero object changes and zero balance changes the summary is
exactly the gas-only sentence; otherwise it is the present, pluralized count
parts joined with the bullet separator and followed by the gas tail. -/
theorem generate_summary_spec (e : TransactionExplanation) :
    (e.actions.length = 0 → e.balance_changes.length = 0 →
      generate_summary e = "Transaction executed with " ++ e.gas_used_sui ++ " gas") ∧
    (0 < e.actions.length → e.balance_changes.length = 0 →
      generate_summary e =
        natToDec e.actions.length ++ " object change" ++
          (if e.actions.length = 1 then "" else "s") ++ " • Gas: " ++ e.gas_used_sui) ∧
    (e.actions.length = 0 → 0 < e.balance_changes.length →
      generate_summary e =
        natToDec e.balance_changes.length ++ " balance change" ++
          (if e.balance_changes.length = 1 then "" else "s") ++ " • Gas: " ++ e.gas_used_sui) ∧
    (0 < e.actions.length → 0 < e.balance_changes.length →
      generate_summary e =
        natToDec e.actions.length ++ " object change" ++
          (if e.actions.length = 1 then "" else "s") ++ " • " ++
        natToDec e.balance_changes.length ++ " balance change" ++
          (if e.balance_changes.length = 1 then "" else "s") ++ " • Gas: " ++ e.gas_used_sui) := by
  refine ⟨?_, ?_, ?_, ?_⟩
  · intro ha hb
    simp [generate_summary, ha, hb]
  · intro ha hb
    have ha' : e.actions.length ≠ 0 := by omega
    simp [generate_summary, ha', hb, joinSep, ha, String.append_assoc]
  · intro ha hb
    have hb' : e.balance_changes.length ≠ 0 := by omega
    simp [generate_summary, ha, hb', hb, joinSep, String.append_assoc]
  · intro ha hb
    have ha' : e.actions.length ≠ 0 := by omega
    have hb' : e.balance_changes.length ≠ 0 := by omega
    simp [generate_summary, ha, hb, ha', hb', joinSep, String.append_assoc]

theorem generate_summary_spec_witness :
    generate_summary eSummaryW = "2 object changes • 1 balance change • Gas: 0.001000 SUI" := by
  have h := (generate_summary_spec eSummaryW).2.2.2 (by decide) (by decide)
  rw [h]
  rfl

/-- C2: on any structurally valid raw record (rendered addresses are ASCII)
`parse_transaction` succeeds; each missing optional section leaves the
corresponding output fields at their defaults, and every object-change variant
other than the four named ones becomes the fixed `Unknown` record rather than
an error. -/
theorem parse_transaction_total (digest : String) (tx : SuiTransactionBlockResponse)
    (h : validResponse tx = true) :
    (∃ e, parse_transaction digest tx = some e ∧ missingSectionDefaults tx e) ∧
    (∀ tag, parse_object_change (ObjectChange.other tag) = some unknownObjectMod) := by
  refine ⟨?_, fun tag => rfl⟩
  have hc : (changesResult tx).isSome = true := by
    unfold changesResult
    unfold validResponse at h
    cases hoc : tx.object_changes with
    | none => rfl
    | some cs =>
      rw [hoc] at h
      exact processChanges_isSome h
  obtain ⟨p, hp⟩ := Option.isSome_iff_exists.mp hc
  refine ⟨buildExplanation digest tx p.1 p.2, ?_, ?_⟩
  · rw [parse_transaction_eq, hp]
    rfl
  · unfold missingSectionDefaults
    refine ⟨?_, ?_, ?_, ?_, ?_⟩
    · intro ht
      simp [buildExplanation, ht]
    · intro ht
      simp [buildExplanation, ht]
    · intro hoc
      have hres : changesResult tx = some ([], []) := by
        unfold changesResult
        rw [hoc]
      rw [hp] at hres
      have hpe : p = ([], []) := by
        injection hres
      subst hpe
      simp [buildExplanation]
    · intro hb
      simp [buildExplanation, hb]
    · intro hev
      simp [buildExplanation, hev]

theorem parse_transaction_total_witness :
    (parse_transaction "w2" txTotalW).isSome = true ∧
    parse_object_change (ObjectChange.other "Published") = some unknownObjectMod := by
  have h := parse_transaction_total "w2" txTotalW (by decide)
  obtain ⟨⟨e, he, _⟩, hu⟩ := h
  exact ⟨by simp [he], hu "Published"⟩

/-- C3: with no effects section the status stays empty and the gas fields stay
at their defaults; with an effects section the status is `"Success"` exactly
when the execution status is ok and otherwise `"Failed : "` followed by the
raw failure rendering. -/
theorem status_gas_extraction (digest : String) (tx : SuiTransactionBlockResponse)
    (e : TransactionExplanation) (h : parse_transaction digest tx = some e) :
    statusGasSpec tx e := by
  rw [parse_transaction_eq] at h
  cases hc : changesResult tx with
  | none =>
    rw [hc] at h
    simp at h
  | some p =>
    rw [hc] at h
    simp only [Option.map_some', Option.some.injEq] at h
    subst h
    unfold statusGasSpec
    refine ⟨?_, ?_⟩
    · intro ht
      simp [buildExplanation, ht]
    · intro effects heff
      refine ⟨?_, ?_⟩
      · intro hok
        simp [buildExplanation, heff, hok]
      · intro hnok
        simp [buildExplanation, heff, hnok]

theorem status_gas_extraction_witness :
    statusGasSpec txStatusW ((parse_transaction "w3" txStatusW).getD defaultExplanation) :=
  status_gas_extraction "w3" txStatusW _ (by rfl)

theorem processChanges_order : ∀ {cs : List ObjectChange}
    {acts : List String} {mods : List ObjectMod},
    processChanges cs = some (acts, mods) →
    mods.length = cs.length ∧
    ∀ i, (cs.get? i).bind parse_object_change = mods.get? i := by
  intro cs
  induction cs with
  | nil =>
    intro acts mods h
    simp [processChanges] at h
    rw [h.2]
    exact ⟨rfl, fun i => by cases i <;> rfl⟩
  | cons c rest ih =>
    intro acts mods h
    simp only [processChanges, Option.bind_eq_bind] at h
    cases hm : parse_object_change c with
    | none =>
      rw [hm] at h
      simp at h
    | some m =>
      rw [hm] at h
      cases hp : processChanges rest with
      | none =>
        rw [hp] at h
        simp at h
      | some p =>
        rw [hp] at h
        obtain ⟨as, ms⟩ := p
        simp at h
        obtain ⟨hlen, hidx⟩ := ih hp
        rw [← h.2]
        refine ⟨by simp [hlen], ?_⟩
        intro i
        cases i with
        | zero => simp [hm]
        | succ j => simpa using hidx j

/-- C4: the produced explanation always has as many `actions` as
`object_changes`, and the i-th action is exactly the i-th object change's
`details`; both lists follow the raw object-changes list's order: the i-th
produced record is exactly the parse of the i-th raw change (and without a raw
list the produced list is empty). -/
theorem actions_match_object_change_details (digest : String)
    (tx : SuiTransactionBlockResponse) (e : TransactionExplanation)
    (h : parse_transaction digest tx = some e) :
    e.actions.length = e.object_changes.length ∧
    (∀ i (hi : i < e.actions.length) (hj : i < e.object_changes.length),
      e.actions.get ⟨i, hi⟩ = (e.object_changes.get ⟨i, hj⟩).details) ∧
    (∀ cs, tx.object_changes = some cs →
      e.object_changes.length = cs.length ∧
      ∀ i, (cs.get? i).bind parse_object_change = e.object_changes.get? i) ∧
    (tx.object_changes = none → e.object_changes = []) := by
  have hkey : e.actions = e.object_changes.map (fun m => m.details) ∧
      (∀ cs, tx.object_changes = some cs →
        e.object_changes.length = cs.length ∧
        ∀ i, (cs.get? i).bind parse_object_change = e.object_changes.get? i) ∧
      (tx.object_changes = none → e.object_changes = []) := by
    rw [parse_transaction_eq] at h
    cases hc : changesResult tx with
    | none =>
      rw [hc] at h
      simp at h
    | some p =>
      rw [hc] at h
      simp only [Option.map_some', Option.some.injEq] at h
      subst h
      have hacts : (buildExplanation digest tx p.1 p.2).actions = p.1 := by
        simp [buildExplanation]
      have hmods : (buildExplanation digest tx p.1 p.2).object_changes = p.2 := by
        simp [buildExplanation]
      rw [hacts, hmods]
      unfold changesResult at hc
      cases hoc : tx.object_changes with
      | none =>
        rw [hoc] at hc
        have hpe : ([], ([] : List ObjectMod)) = p := by
          injection hc
        refine ⟨?_, ?_, fun _ => ?_⟩
        · rw [← hpe]
          rfl
        · intro cs hcs
          exact Option.noConfusion hcs
        · rw [← hpe]
      | some cs =>
        rw [hoc] at hc
        have hord := processChanges_order hc
        refine ⟨processChanges_actions_eq hc, ?_, ?_⟩
        · intro cs' hcs'
          have hcc : cs = cs' := by
            injection hcs'
          subst hcc
          exact hord
        · intro hnone
          exact Option.noConfusion hnone
  obtain ⟨hmap, horder, hnone⟩ := hkey
  refine ⟨?_, ?_, horder, hnone⟩
  · rw [hmap]
    simp
  · intro i hi hj
    have h1 : e.actions.get? i = some (e.actions.get ⟨i, hi⟩) := List.get?_eq_get hi
    have h2 : e.object_changes.get? i = some (e.object_changes.get ⟨i, hj⟩) :=
      List.get?_eq_get hj
    nth_rewrite 1 [hmap] at h1
    rw [List.get?_map, h2, Option.map_some'] at h1
    exact (Option.some.inj h1).symm

theorem actions_match_object_change_details_witness :
    ((parse_transaction "w4" txActionsW).getD defaultExplanation).actions.length =
      ((parse_transaction "w4" txActionsW).getD defaultExplanation).object_changes.length ∧
    ((parse_transaction "w4" txActionsW).getD defaultExplanation).object_changes.length = 2 := by
  have h := actions_match_object_change_details "w4" txActionsW _ (by rfl)
  exact ⟨h.1, ((h.2.2.1 _ rfl).1).trans rfl⟩
